import Mathlib

/-!
Verification development for the Bedrock-Agent-Optimizer core.

Shallow embedding of the three components under `src/src/`:

* `cache.py` — `AgentResponseCache`: a content-addressed, TTL-bounded response
  cache over an external redis store, with hit/miss accounting.
* `router.py` — `PredictiveRouter`: a bigram transition-frequency model with
  confidence-thresholded prediction.
* `agent_wrapper.py` — `BedrockAgentOptimizer`: the chain orchestrator that
  interleaves cache lookups, real invocations and speculative preloads.

Modelling conventions:

* The sha256 fingerprint of `_build_key` is computed over a canonical
  (sort_keys) JSON serialization of the triple (agent_id, payload, context),
  so it is a pure injective function of the triple (hash collisions are
  treated as negligible, as the design itself does).  We model the key as the
  triple itself (`CacheKey`).
* The redis store is external.  For the orchestrator we model it as an
  association list of entries carrying an absolute expiry instant
  (`SETEX key ttl value` stores until `now + ttl`; an expired entry is
  invisible to `GET`).  For the failure-semantics claims the client is an
  abstract, possibly-failing function returning `Except`.
* Wall-clock time is a `Nat` parameter (seconds); `run_chain` derives its
  session id from it exactly as the source does
  (`f"chain-{int(time.time())}"`).
* Python floats become `ℚ`; the json round-trip of a response dict is the
  identity; `if cached:` truthiness on the stored JSON string equals presence,
  because `json.dumps` of the response dict is never the empty string.
-/

/-- Request payload built by `run_chain`:
`{"input_text": current_input, "session_id": session_id}`. -/
structure Payload where
  input_text : String
  session_id : String
deriving DecidableEq

/-- Chain context dict built by `run_chain`: `{"session_id": ...}`. -/
structure ChainContext where
  session_id : String
deriving DecidableEq

/-- Model of `AgentResponseCache._build_key`: the canonical-JSON sha256 digest
is a pure injective function of the triple, modelled as the triple itself. -/
structure CacheKey where
  agent_id : String
  payload : Payload
  context : ChainContext
deriving DecidableEq

/-- The response dict assembled by `_invoke_agent` (and stored by
`cache.put` before the caller adds `latency_ms`):
`{"agent_id": ..., "output": ..., "timestamp": ...}`. -/
structure AgentResult where
  agent_id : String
  output : String
  timestamp : Nat
deriving DecidableEq

/-- One entry of the backing redis store: the cached response together with
the absolute instant at which redis expires it (`SETEX` semantics). -/
structure StoredEntry where
  value : AgentResult
  expires_at : Nat
deriving DecidableEq

/-- First-match lookup in the store association list (later `put`s prepend,
so the first match is the most recent write, matching redis overwrite). -/
def storeLookup : List (CacheKey × StoredEntry) → CacheKey → Option StoredEntry
  | [], _ => none
  | (k, e) :: rest, key => if k = key then some e else storeLookup rest key

/-- Model of `redis.GET` at instant `now`: an entry is visible only while it
is unexpired, otherwise redis reports absence. -/
def storeGet (now : Nat) (store : List (CacheKey × StoredEntry)) (key : CacheKey) :
    Option AgentResult :=
  match storeLookup store key with
  | some e => if now < e.expires_at then some e.value else none
  | none => none

/-- State owned by one `AgentResponseCache` object: the backing store reached
through `self.client`, and the `_hits` / `_misses` counters. -/
structure CacheState where
  store : List (CacheKey × StoredEntry)
  hits : Nat
  misses : Nat
deriving DecidableEq

/-- Model of `AgentResponseCache._build_key` as a total function. -/
def buildKey (agent_id : String) (payload : Payload) (context : ChainContext) : CacheKey :=
  ⟨agent_id, payload, context⟩

/-- `AgentResponseCache.get` (cache.py lines 35-44) over a working store:
look up the fingerprint; on presence bump `_hits` and return the parsed
response, on absence bump `_misses` and return `None`. -/
def AgentResponseCache.get (now : Nat) (st : CacheState) (agent_id : String)
    (payload : Payload) (context : ChainContext) : Option AgentResult × CacheState :=
  match storeGet now st.store (buildKey agent_id payload context) with
  | some v => (some v, { st with hits := st.hits + 1 })
  | none => (none, { st with misses := st.misses + 1 })

/-- `AgentResponseCache.put` (cache.py lines 46-49) over a working store:
`SETEX` the serialized response under the fingerprint with the configured
TTL, overwriting any previous entry under the same fingerprint. -/
def AgentResponseCache.put (now ttl : Nat) (st : CacheState) (agent_id : String)
    (payload : Payload) (response : AgentResult) (context : ChainContext) : CacheState :=
  { st with store := (buildKey agent_id payload context, ⟨response, now + ttl⟩) :: st.store }

/-- `AgentResponseCache.hit_rate` (cache.py lines 51-55):
`hits / (hits + misses)` when any lookup happened, `0.0` otherwise. -/
def AgentResponseCache.hit_rate (st : CacheState) : ℚ :=
  let total := st.hits + st.misses
  if total > 0 then (st.hits : ℚ) / (total : ℚ) else 0

/-- `AgentResponseCache.get` with the redis client left abstract as a
possibly-failing function (`redis` raises when the store is unreachable).
The source body has no `try`/`except`, so a client error escapes `get`
unhandled; the counters are threaded as plain numbers. -/
def AgentResponseCache.getClient
    (client_get : CacheKey → Except String (Option AgentResult))
    (hits misses : Nat) (agent_id : String) (payload : Payload)
    (context : ChainContext) : Except String (Option AgentResult × Nat × Nat) :=
  match client_get (buildKey agent_id payload context) with
  | Except.error e => Except.error e
  | Except.ok (some v) => Except.ok (some v, hits + 1, misses)
  | Except.ok none => Except.ok (none, hits, misses + 1)

/-- `AgentResponseCache.put` with the redis client left abstract as a
possibly-failing function.  The source body is a bare `self.client.setex`
with no `try`/`except`, so a client error escapes `put` unhandled. -/
def AgentResponseCache.putClient
    (client_setex : CacheKey → Nat → AgentResult → Except String Unit)
    (ttl : Nat) (agent_id : String) (payload : Payload) (response : AgentResult)
    (context : ChainContext) : Except String Unit :=
  client_setex (buildKey agent_id payload context) ttl response

/-- A redis client whose every `GET` raises (store unreachable). -/
def failingClientGet (msg : String) : CacheKey → Except String (Option AgentResult) :=
  fun _ => Except.error msg

/-- A redis client whose every `SETEX` raises (store unreachable). -/
def failingClientSet (msg : String) : CacheKey → Nat → AgentResult → Except String Unit :=
  fun _ _ _ => Except.error msg

/-- State of a `PredictiveRouter`: `_transitions` is a
`defaultdict(Counter)`; both the outer dict and each `Counter` preserve
insertion order (Python 3.7+ dicts), so we model them as association lists
in insertion order.  `_total_traces` counts recorded transitions. -/
structure RouterState where
  transitions : List (String × List (String × Nat))
  total_traces : Nat
deriving DecidableEq

/-- A freshly constructed `PredictiveRouter` (router.py `__init__`). -/
def freshRouter : RouterState := ⟨[], 0⟩

/-- `counter[to_agent] += 1` on an insertion-ordered `Counter`: increment the
existing entry in place, or append a new entry with count 1 at the end. -/
def bumpCounter : List (String × Nat) → String → List (String × Nat)
  | [], to_agent => [(to_agent, 1)]
  | (a, n) :: rest, to_agent =>
    if a = to_agent then (a, n + 1) :: rest
    else (a, n) :: bumpCounter rest to_agent

/-- `self._transitions[from_agent][to_agent] += 1` on the insertion-ordered
outer dict (`defaultdict` inserts a missing `from_agent` at the end). -/
def bumpTrans : List (String × List (String × Nat)) → String → String →
    List (String × List (String × Nat))
  | [], from_agent, to_agent => [(from_agent, [(to_agent, 1)])]
  | (a, c) :: rest, from_agent, to_agent =>
    if a = from_agent then (a, bumpCounter c to_agent) :: rest
    else (a, c) :: bumpTrans rest from_agent to_agent

/-- `self._transitions.get(current_agent)` (no default insertion). -/
def lookupTrans : List (String × List (String × Nat)) → String →
    Option (List (String × Nat))
  | [], _ => none
  | (a, c) :: rest, agent => if a = agent then some c else lookupTrans rest agent

/-- `PredictiveRouter.record_transition` (router.py lines 24-27). -/
def PredictiveRouter.record_transition (st : RouterState) (from_agent to_agent : String) :
    RouterState :=
  ⟨bumpTrans st.transitions from_agent to_agent, st.total_traces + 1⟩

/-- `PredictiveRouter.ingest_trace` (router.py lines 29-32):
`for i in range(len(seq) - 1): record_transition(seq[i], seq[i+1])`. -/
def PredictiveRouter.ingest_trace (st : RouterState) : List String → RouterState
  | a :: b :: rest =>
    PredictiveRouter.ingest_trace (PredictiveRouter.record_transition st a b) (b :: rest)
  | _ => st

/-- `sum(counts.values())`. -/
def countsTotal (counts : List (String × Nat)) : Nat :=
  (counts.map Prod.snd).sum

/-- `counts.most_common(1)[0]`: Python's `Counter.most_common` sorts by count
descending with a stable sort, so the first element is the earliest-inserted
entry holding the maximal count.  We scan left to right, replacing the
running best only on a strictly greater count. -/
def firstMax : (String × Nat) → List (String × Nat) → String × Nat
  | best, [] => best
  | best, p :: rest => if best.2 < p.2 then firstMax p rest else firstMax best rest

/-- `PredictiveRouter.predict_next` (router.py lines 34-61).  `if not counts`
is Python truthiness of a possibly-missing `Counter`, covering both a missing
entry and an empty one. -/
def PredictiveRouter.predict_next (threshold : ℚ) (st : RouterState)
    (current_agent : String) : Option String × ℚ :=
  match lookupTrans st.transitions current_agent with
  | none => (none, 0)
  | some [] => (none, 0)
  | some (c :: cs) =>
    let total := countsTotal (c :: cs)
    let best := firstMax c cs
    let confidence : ℚ := (best.2 : ℚ) / (total : ℚ)
    if threshold ≤ confidence then (some best.1, confidence)
    else (none, confidence)

/-- `PredictiveRouter.should_preload` (router.py lines 63-66):
`return agent_id if agent_id else None` — Python string truthiness also
rejects a predicted empty-string agent id. -/
def PredictiveRouter.should_preload (threshold : ℚ) (st : RouterState)
    (current_agent : String) : Option String :=
  match PredictiveRouter.predict_next threshold st current_agent with
  | (some agent_id, _) => if agent_id = "" then none else some agent_id
  | (none, _) => none

/-- `PredictiveRouter.stats` (router.py lines 68-75). -/
def PredictiveRouter.stats (st : RouterState) : Nat × List String × Nat :=
  (st.total_traces, st.transitions.map Prod.fst,
    (st.transitions.map (fun e => e.2.length)).sum)

/-- A step result as appended to `results` by `run_chain`: the response dict
after the caller added `latency_ms`. -/
structure StepResult where
  agent_id : String
  output : String
  timestamp : Nat
  latency_ms : ℚ
deriving DecidableEq

/-- The latency-independent content of a step result (the fields produced by
`_invoke_agent` / served from the cache). -/
def StepResult.content (r : StepResult) : AgentResult :=
  ⟨r.agent_id, r.output, r.timestamp⟩

/-- Behaviour knob for the speculative preload side channel, used to compare
the source behaviour against a disabled or failing preload path (claim about
preload non-interference): `enabled = true` with `probeOk` constantly true is
the unmodified source; `enabled = false` removes the launch; `probeOk`
returning false makes every probe fail (the failure is swallowed inside
`_preload_context`). -/
structure PreloadMode where
  enabled : Bool
  probeOk : String → Bool

/-- Ambient collaborators and configuration of one `run_chain` call:
the external invocation capability (`invoke agentId sessionId inputText`
returns the concatenated streamed completion), the cache TTL, the prediction
threshold, the preload knob, the per-step measured latency (an external
observation, in ms), and the wall-clock second at which the run starts. -/
structure ChainEnv where
  invoke : String → String → String → String
  ttl : Nat
  threshold : ℚ
  mode : PreloadMode
  lat : Nat → ℚ
  now : Nat

/-- `f"chain-{int(time.time())}"`. -/
def sessionId (now : Nat) : String :=
  "chain-" ++ toString now

/-- Mutable state threaded through one `run_chain` call: the shared cache and
router, the `_preloaded` in-flight map (modelled by its key set, since the
futures' values are never read into results), the accumulated `results`,
the trace of real (required, synchronous) external invocations performed by
`_invoke_agent`, the trace of preload probe invocations (with their outcome),
and `current_input`. -/
structure ChainState where
  cache : CacheState
  router : RouterState
  preloaded : List String
  results : List StepResult
  realCalls : List String
  probeCalls : List (String × Bool)
  current_input : String

/-- `BedrockAgentOptimizer._invoke_agent` (agent_wrapper.py lines 31-57):
try the cache; on hit return the cached response, on miss perform the real
external invocation, assemble the response dict and write it through.
The third component records whether a real invocation happened. -/
def BedrockAgentOptimizer.invoke_agent (invoke : String → String → String → String)
    (ttl now : Nat) (cache : CacheState) (agent_id : String) (payload : Payload)
    (context : ChainContext) : AgentResult × CacheState × Bool :=
  match AgentResponseCache.get now cache agent_id payload context with
  | (some cached, cache1) => (cached, cache1, false)
  | (none, cache1) =>
    let output := invoke agent_id payload.session_id payload.input_text
    let result : AgentResult := ⟨agent_id, output, now⟩
    (result, AgentResponseCache.put now ttl cache1 agent_id payload result context, true)

/-- `self._preloaded[predicted] = future`: dict assignment keeps an existing
key's position and appends a new key at the end. -/
def insertPreload (preloaded : List String) (agent_id : String) : List String :=
  if agent_id ∈ preloaded then preloaded else preloaded ++ [agent_id]

/-- The cache-and-invoke part of one `run_chain` loop iteration
(agent_wrapper.py lines 88-107): build the payload, best-effort join and
drop an in-flight preload for this agent (the join's outcome is swallowed
and nothing of it is read), execute `_invoke_agent`, append the result with
its measured latency, and feed the output forward. -/
def chainStepCore (env : ChainEnv) (i : Nat) (agent_id : String) (st : ChainState) :
    ChainState :=
  let sid := sessionId env.now
  let payload : Payload := ⟨st.current_input, sid⟩
  let context : ChainContext := ⟨sid⟩
  let r := BedrockAgentOptimizer.invoke_agent env.invoke env.ttl env.now st.cache
    agent_id payload context
  { cache := r.2.1
    router := st.router
    preloaded := st.preloaded.erase agent_id
    results := st.results ++ [⟨r.1.agent_id, r.1.output, r.1.timestamp, env.lat i⟩]
    realCalls := st.realCalls ++ (if r.2.2 then [agent_id] else [])
    probeCalls := st.probeCalls
    current_input := r.1.output }

/-- The preload-launch part of one `run_chain` loop iteration
(agent_wrapper.py lines 112-117), executed after the router already holds the
freshly recorded transition: ask `should_preload`; on a candidate, launch the
probe (`_preload_context`, lines 59-71, whose failure is caught and logged)
and register the in-flight handle. -/
def chainStepPreload (env : ChainEnv) (agent_id : String) (st : ChainState) : ChainState :=
  match PredictiveRouter.should_preload env.threshold st.router agent_id with
  | none => st
  | some predicted =>
    if env.mode.enabled then
      { st with
        preloaded := insertPreload st.preloaded predicted
        probeCalls := st.probeCalls ++ [(predicted, env.mode.probeOk predicted)] }
    else st

/-- The transition-recording and preload part of one `run_chain` loop
iteration (agent_wrapper.py lines 109-117), executed only when a next agent
exists: record the observed transition into the shared router, then decide
and launch the speculative preload. -/
def chainStepRoute (env : ChainEnv) (agent_id : String) (next : Option String)
    (st : ChainState) : ChainState :=
  match next with
  | none => st
  | some next_agent =>
    chainStepPreload env agent_id
      { st with router := PredictiveRouter.record_transition st.router agent_id next_agent }

/-- The `for i, agent_id in enumerate(agent_ids)` loop of `run_chain`. -/
def runChainGo (env : ChainEnv) : Nat → List String → ChainState → ChainState
  | _, [], st => st
  | i, a :: rest, st =>
    runChainGo env (i + 1) rest (chainStepRoute env a rest.head? (chainStepCore env i a st))

/-- `BedrockAgentOptimizer.run_chain` (agent_wrapper.py lines 73-119), run
against the given shared cache, router and in-flight preload map. -/
def BedrockAgentOptimizer.run_chain (env : ChainEnv) (cache : CacheState)
    (router : RouterState) (preloaded : List String) (agent_ids : List String)
    (input_text : String) : ChainState :=
  runChainGo env 0 agent_ids
    { cache := cache, router := router, preloaded := preloaded, results := []
      realCalls := [], probeCalls := [], current_input := input_text }

/-- `OptimizerConfig` (config.py lines 5-16); environment-derived defaults are
irrelevant to the claims, the record holds the resolved values. -/
structure OptimizerConfig where
  redis_host : String
  redis_port : Nat
  cache_ttl : Nat
  prediction_threshold : ℚ
  aws_region : String
  agent_ids : List String

/-- The spec-side well-formedness of a configuration: threshold within [0,1]
and a non-empty agent identifier list. -/
def OptimizerConfig.isWellFormed (c : OptimizerConfig) : Prop :=
  0 ≤ c.prediction_threshold ∧ c.prediction_threshold ≤ 1 ∧ c.agent_ids ≠ []

/-- State owned by a `BedrockAgentOptimizer` instance. -/
structure OptimizerState where
  config : OptimizerConfig
  cache : CacheState
  router : RouterState
  preloaded : List String

/-- `BedrockAgentOptimizer.__init__` (agent_wrapper.py lines 21-29): store the
config, connect the cache to the external store (whose prior contents are the
given `initialStore`), build a fresh router and an empty `_preloaded` map.
The source performs no validation of the configuration. -/
def BedrockAgentOptimizer.init (config : OptimizerConfig)
    (initialStore : List (CacheKey × StoredEntry)) : OptimizerState :=
  { config := config
    cache := ⟨initialStore, 0, 0⟩
    router := freshRouter
    preloaded := [] }

/-- `run_chain` as a method of a constructed optimizer: the TTL and threshold
come from its configuration. -/
def OptimizerState.runChain (o : OptimizerState)
    (invoke : String → String → String → String) (mode : PreloadMode)
    (lat : Nat → ℚ) (now : Nat) (agent_ids : List String) (input_text : String) :
    ChainState :=
  BedrockAgentOptimizer.run_chain
    ⟨invoke, o.config.cache_ttl, o.config.prediction_threshold, mode, lat, now⟩
    o.cache o.router o.preloaded agent_ids input_text

/-- Consecutive pairs of a trace, mirroring
`for i in range(len(seq) - 1): (seq[i], seq[i+1])`. -/
def consecPairs : List String → List (String × String)
  | a :: b :: rest => (a, b) :: consecPairs (b :: rest)
  | _ => []

/-- A sequence of `cache.get` calls against one `AgentResponseCache`. -/
def runGets (now : Nat) (st : CacheState) :
    List (String × Payload × ChainContext) → CacheState
  | [] => st
  | (a, p, c) :: rest => runGets now (AgentResponseCache.get now st a p c).2 rest

lemma get_store_const (now : Nat) (st : CacheState) (a : String) (p : Payload)
    (c : ChainContext) : ((AgentResponseCache.get now st a p c).2).store = st.store := by
  unfold AgentResponseCache.get
  split <;> rfl

lemma get_counts (now : Nat) (st : CacheState) (a : String) (p : Payload)
    (c : ChainContext) :
    ((AgentResponseCache.get now st a p c).2).hits + ((AgentResponseCache.get now st a p c).2).misses
      = st.hits + st.misses + 1 := by
  unfold AgentResponseCache.get
  split
  · simp only []
    omega
  · simp only []
    omega

lemma runGets_sum (now : Nat) :
    ∀ (calls : List (String × Payload × ChainContext)) (st : CacheState),
      (runGets now st calls).hits + (runGets now st calls).misses
        = st.hits + st.misses + calls.length := by
  intro calls
  induction calls with
  | nil => intro st; simp [runGets]
  | cons q rest ih =>
    intro st
    obtain ⟨a, p, c⟩ := q
    have h := get_counts now st a p c
    calc (runGets now st ((a, p, c) :: rest)).hits + (runGets now st ((a, p, c) :: rest)).misses
        = (runGets now (AgentResponseCache.get now st a p c).2 rest).hits
          + (runGets now (AgentResponseCache.get now st a p c).2 rest).misses := rfl
      _ = ((AgentResponseCache.get now st a p c).2).hits
          + ((AgentResponseCache.get now st a p c).2).misses + rest.length := ih _
      _ = st.hits + st.misses + 1 + rest.length := by rw [h]
      _ = st.hits + st.misses + ((a, p, c) :: rest).length := by
          simp [List.length_cons]
          omega

lemma hit_rate_eq (st : CacheState) :
    AgentResponseCache.hit_rate st =
      (if st.hits + st.misses = 0 then 0
       else (st.hits : ℚ) / ((st.hits : ℚ) + (st.misses : ℚ))) := by
  unfold AgentResponseCache.hit_rate
  by_cases h : st.hits + st.misses = 0
  · simp [h]
  · have hpos : st.hits + st.misses > 0 := Nat.pos_of_ne_zero h
    rw [if_pos hpos, if_neg h]
    push_cast
    rfl

/-- C3: after any sequence of `get` calls on a fresh `AgentResponseCache`
(counters at zero, arbitrary pre-existing backing-store contents), the hit
counter plus the miss counter equals the number of `get` calls made — each
call increments exactly one of the two — and the reported `hit_rate` equals
`hits / (hits + misses)`, with `hit_rate = 0` when no call has been made. -/
theorem c3_cache_accounting (now : Nat) (store : List (CacheKey × StoredEntry))
    (calls : List (String × Payload × ChainContext)) :
    (runGets now ⟨store, 0, 0⟩ calls).hits + (runGets now ⟨store, 0, 0⟩ calls).misses
      = calls.length
  ∧ AgentResponseCache.hit_rate (runGets now ⟨store, 0, 0⟩ calls) =
      (if (runGets now ⟨store, 0, 0⟩ calls).hits + (runGets now ⟨store, 0, 0⟩ calls).misses = 0
       then 0
       else ((runGets now ⟨store, 0, 0⟩ calls).hits : ℚ)
            / (((runGets now ⟨store, 0, 0⟩ calls).hits : ℚ)
               + ((runGets now ⟨store, 0, 0⟩ calls).misses : ℚ))) := by
  constructor
  · have h := runGets_sum now calls ⟨store, 0, 0⟩
    simpa using h
  · exact hit_rate_eq _

/-- C2 counterexample: with the backing store unreachable (every client call
raises), `AgentResponseCache.get` does not return absence — the error
propagates out of `get`, and likewise out of `put`, because the source has no
exception handling around the client calls. -/
theorem c2_counterexample :
    AgentResponseCache.getClient (failingClientGet "ConnectionError") 0 0
      "agent-1" ⟨"hello", "s1"⟩ ⟨"s1"⟩ = Except.error "ConnectionError"
  ∧ AgentResponseCache.putClient (failingClientSet "ConnectionError") 300
      "agent-1" ⟨"hello", "s1"⟩ ⟨"agent-1", "out", 0⟩ ⟨"s1"⟩
      = Except.error "ConnectionError" :=
  ⟨rfl, rfl⟩

/-- C2 amended: a backing-store failure during `get` is not caught —
`AgentResponseCache.get` propagates the client's error to its caller, and
`AgentResponseCache.put` likewise; since `_invoke_agent` calls them
unguarded, a store failure aborts the chain execution instead of degrading
to a miss / best-effort writethrough. -/
theorem c2_store_failure_propagates
    (client_get : CacheKey → Except String (Option AgentResult))
    (client_setex : CacheKey → Nat → AgentResult → Except String Unit)
    (hits misses : Nat) (a : String) (p : Payload) (ctx : ChainContext)
    (ttl : Nat) (r : AgentResult) (e : String) :
    (client_get (buildKey a p ctx) = Except.error e →
      AgentResponseCache.getClient client_get hits misses a p ctx = Except.error e)
  ∧ (client_setex (buildKey a p ctx) ttl r = Except.error e →
      AgentResponseCache.putClient client_setex ttl a p r ctx = Except.error e) := by
  constructor
  · intro h
    unfold AgentResponseCache.getClient
    rw [h]
  · intro h
    unfold AgentResponseCache.putClient
    rw [h]

/-- Witness for C2: the propagation theorem applied to a concrete failing
client at a concrete request. -/
theorem c2_witness :
    AgentResponseCache.getClient (failingClientGet "boom") 3 4
      "agent-2" ⟨"x", "s"⟩ ⟨"s"⟩ = Except.error "boom"
  ∧ AgentResponseCache.putClient (failingClientSet "boom") 60
      "agent-2" ⟨"x", "s"⟩ ⟨"agent-2", "y", 1⟩ ⟨"s"⟩ = Except.error "boom" :=
  ⟨(c2_store_failure_propagates (failingClientGet "boom") (failingClientSet "boom")
      3 4 "agent-2" ⟨"x", "s"⟩ ⟨"s"⟩ 60 ⟨"agent-2", "y", 1⟩ "boom").1 rfl,
   (c2_store_failure_propagates (failingClientGet "boom") (failingClientSet "boom")
      3 4 "agent-2" ⟨"x", "s"⟩ ⟨"s"⟩ 60 ⟨"agent-2", "y", 1⟩ "boom").2 rfl⟩

/-- C10: running a chain with an empty agent list returns the empty result
list, performs no cache lookup, no real invocation and no preload, and leaves
the cache (store and hit/miss counters), the router and the in-flight preload
map exactly as they were. -/
theorem c10_empty_chain (env : ChainEnv) (cache : CacheState) (router : RouterState)
    (preloaded : List String) (input_text : String) :
    BedrockAgentOptimizer.run_chain env cache router preloaded [] input_text =
      { cache := cache, router := router, preloaded := preloaded, results := []
        realCalls := [], probeCalls := [], current_input := input_text } :=
  rfl

lemma firstMax_le (cs : List (String × Nat)) :
    ∀ best : String × Nat,
      best.2 ≤ (firstMax best cs).2 ∧ ∀ p ∈ cs, p.2 ≤ (firstMax best cs).2 := by
  induction cs with
  | nil =>
    intro best
    exact ⟨le_refl _, by intro p hp; cases hp⟩
  | cons q rest ih =>
    intro best
    unfold firstMax
    by_cases h : best.2 < q.2
    · rw [if_pos h]
      obtain ⟨h1, h2⟩ := ih q
      refine ⟨le_trans (le_of_lt h) h1, ?_⟩
      intro p hp
      rcases List.mem_cons.mp hp with hpq | hpr
      · rw [hpq]; exact h1
      · exact h2 p hpr
    · rw [if_neg h]
      obtain ⟨h1, h2⟩ := ih best
      refine ⟨h1, ?_⟩
      intro p hp
      rcases List.mem_cons.mp hp with hpq | hpr
      · rw [hpq]; exact le_trans (Nat.le_of_not_lt h) h1
      · exact h2 p hpr

lemma firstMax_mem (cs : List (String × Nat)) :
    ∀ best : String × Nat, firstMax best cs = best ∨ firstMax best cs ∈ cs := by
  induction cs with
  | nil => intro best; left; rfl
  | cons q rest ih =>
    intro best
    unfold firstMax
    by_cases h : best.2 < q.2
    · rw [if_pos h]
      rcases ih q with h1 | h1
      · right; rw [h1]; exact List.mem_cons_self _ _
      · right; exact List.mem_cons_of_mem _ h1
    · rw [if_neg h]
      rcases ih best with h1 | h1
      · left; exact h1
      · right; exact List.mem_cons_of_mem _ h1

lemma firstMax_split (cs : List (String × Nat)) :
    ∀ best : String × Nat,
      ∃ l1 l2, best :: cs = l1 ++ (firstMax best cs) :: l2
        ∧ ∀ p ∈ l1, p.2 < (firstMax best cs).2 := by
  induction cs with
  | nil =>
    intro best
    exact ⟨[], [], rfl, by intro p hp; cases hp⟩
  | cons q rest ih =>
    intro best
    by_cases h : best.2 < q.2
    · have he : firstMax best (q :: rest) = firstMax q rest := by
        show (if best.2 < q.2 then firstMax q rest else firstMax best rest) = firstMax q rest
        rw [if_pos h]
      obtain ⟨l1, l2, heq, hlt⟩ := ih q
      refine ⟨best :: l1, l2, ?_, ?_⟩
      · rw [he, List.cons_append, ← heq]
      · intro p hp
        rcases List.mem_cons.mp hp with hpb | hpl
        · rw [hpb, he]
          exact lt_of_lt_of_le h (firstMax_le rest q).1
        · rw [he]; exact hlt p hpl
    · have he : firstMax best (q :: rest) = firstMax best rest := by
        show (if best.2 < q.2 then firstMax q rest else firstMax best rest) = firstMax best rest
        rw [if_neg h]
      obtain ⟨l1, l2, heq, hlt⟩ := ih best
      cases l1 with
      | nil =>
        simp only [List.nil_append] at heq
        injection heq with hfm hl2
        refine ⟨[], q :: rest, ?_, ?_⟩
        · rw [he, List.nil_append, ← hfm]
        · intro p hp; cases hp
      | cons b l1t =>
        rw [List.cons_append] at heq
        injection heq with hb hrest
        have hbest : best.2 < (firstMax best rest).2 := by
          have hbmem := hlt b (List.mem_cons_self b l1t)
          rw [← hb] at hbmem
          exact hbmem
        refine ⟨best :: q :: l1t, l2, ?_, ?_⟩
        · rw [he]
          simp only [List.cons_append]
          conv_lhs => rw [hrest]
        · intro p hp
          rcases List.mem_cons.mp hp with h1 | hp2
          · rw [h1, he]; exact hbest
          · rcases List.mem_cons.mp hp2 with h2 | hp3
            · rw [h2, he]
              exact lt_of_le_of_lt (Nat.le_of_not_lt h) hbest
            · rw [he]; exact hlt p (List.mem_cons_of_mem b hp3)

lemma predict_next_eval (threshold : ℚ) (st : RouterState) (A : String)
    (c : String × Nat) (cs : List (String × Nat))
    (hlk : lookupTrans st.transitions A = some (c :: cs)) :
    PredictiveRouter.predict_next threshold st A =
      (if threshold ≤ ((firstMax c cs).2 : ℚ) / (countsTotal (c :: cs) : ℚ)
       then some (firstMax c cs).1 else none,
       ((firstMax c cs).2 : ℚ) / (countsTotal (c :: cs) : ℚ)) := by
  unfold PredictiveRouter.predict_next
  rw [hlk]
  by_cases h : threshold ≤ ((firstMax c cs).2 : ℚ) / (countsTotal (c :: cs) : ℚ)
  · simp [h]
  · simp [h]

lemma bumpCounter_order (counts : List (String × Nat)) (to_agent : String) :
    (bumpCounter counts to_agent).map Prod.fst =
      (if to_agent ∈ counts.map Prod.fst then counts.map Prod.fst
       else counts.map Prod.fst ++ [to_agent]) := by
  induction counts with
  | nil => simp [bumpCounter]
  | cons q rest ih =>
    obtain ⟨a, n⟩ := q
    unfold bumpCounter
    by_cases h : a = to_agent
    · rw [if_pos h]
      have hmem : to_agent ∈ ((a, n) :: rest).map Prod.fst := by
        simp [h.symm]
      rw [if_pos hmem]
      simp
    · rw [if_neg h]
      simp only [List.map_cons]
      rw [ih]
      by_cases h2 : to_agent ∈ rest.map Prod.fst
      · rw [if_pos h2, if_pos (by simp [h2])]
      · have hne : ¬ to_agent ∈ (a : String) :: rest.map Prod.fst := by
          simp only [List.mem_cons]
          push_neg
          exact ⟨fun he => h he.symm, h2⟩
        rw [if_neg h2, if_neg hne, List.cons_append]

/-- C4: for every router state and agent `A` whose outgoing counts have
positive total (every state reachable through `record_transition` has
positive counts; on a zero-total counter the source would raise
`ZeroDivisionError`, which is unreachable through the API): if `A` has no
recorded outgoing transitions, `predict_next` returns `(none, 0.0)`;
otherwise there is a most-frequent successor `b` such that `predict_next`
returns `(b, count b / total)` when that confidence reaches the configured
threshold and `(none, count b / total)` otherwise — the true confidence is
reported even on rejection. -/
theorem c4_predict_contract (threshold : ℚ) (st : RouterState) (A : String) :
    ((lookupTrans st.transitions A).getD [] = [] →
      PredictiveRouter.predict_next threshold st A = (none, 0))
  ∧ (∀ (c : String × Nat) (cs : List (String × Nat)),
      lookupTrans st.transitions A = some (c :: cs) → 0 < countsTotal (c :: cs) →
      ∃ b, b ∈ c :: cs ∧ (∀ p ∈ c :: cs, p.2 ≤ b.2) ∧
        PredictiveRouter.predict_next threshold st A =
          (if threshold ≤ (b.2 : ℚ) / (countsTotal (c :: cs) : ℚ) then some b.1 else none,
           (b.2 : ℚ) / (countsTotal (c :: cs) : ℚ))) := by
  constructor
  · intro h
    rcases hl : lookupTrans st.transitions A with _ | counts
    · simp [PredictiveRouter.predict_next, hl]
    · rw [hl] at h
      simp only [Option.getD_some] at h
      subst h
      simp [PredictiveRouter.predict_next, hl]
  · intro c cs hlk hpos
    refine ⟨firstMax c cs, ?_, ?_, ?_⟩
    · rcases firstMax_mem cs c with h | h
      · rw [h]; exact List.mem_cons_self _ _
      · exact List.mem_cons_of_mem _ h
    · intro p hp
      rcases List.mem_cons.mp hp with h | h
      · rw [h]; exact (firstMax_le cs c).1
      · exact (firstMax_le cs c).2 p h
    · exact predict_next_eval threshold st A c cs hlk

/-- A router that observed A→B once, A→C once and A→D once. -/
def routerABCD : RouterState :=
  PredictiveRouter.record_transition
    (PredictiveRouter.record_transition
      (PredictiveRouter.record_transition freshRouter "A" "B") "A" "C") "A" "D"

/-- Witness for C4: the contract applied to a fresh router at an unseen
agent, and to the spec's threshold-rejection example (A→B, A→C, A→D once
each at threshold 0.7). -/
theorem c4_witness :
    PredictiveRouter.predict_next (7/10) freshRouter "Q" = (none, 0)
  ∧ (∃ b : String × Nat, b ∈ ([("B", 1), ("C", 1), ("D", 1)] : List (String × Nat))
      ∧ (∀ p ∈ ([("B", 1), ("C", 1), ("D", 1)] : List (String × Nat)), p.2 ≤ b.2)
      ∧ PredictiveRouter.predict_next (7/10) routerABCD "A" =
          (if (7/10 : ℚ) ≤ (b.2 : ℚ) / (countsTotal [("B", 1), ("C", 1), ("D", 1)] : ℚ)
           then some b.1 else none,
           (b.2 : ℚ) / (countsTotal [("B", 1), ("C", 1), ("D", 1)] : ℚ))) :=
  ⟨(c4_predict_contract (7/10) freshRouter "Q").1 (by decide),
   (c4_predict_contract (7/10) routerABCD "A").2 ("B", 1) [("C", 1), ("D", 1)]
     (by decide) (by decide)⟩

/-- C5: for every router state and agent `A` with outgoing counts, the
candidate computed by `predict_next` is the first-recorded element among
those sharing the maximal count: the counter splits as `l1 ++ best :: l2`
with every element of `l1` strictly below `best`'s count, `best` dominates
the whole counter, and `predict_next` returns exactly that `best` (when the
threshold admits it).  The final conjunct shows the counter's order is
first-recorded order: an increment keeps the existing name order and a new
successor is appended at the end. -/
theorem c5_tie_break (threshold : ℚ) (st : RouterState) (A : String)
    (c : String × Nat) (cs : List (String × Nat))
    (hlk : lookupTrans st.transitions A = some (c :: cs))
    (_hpos : 0 < countsTotal (c :: cs)) :
    (∃ l1 l2, c :: cs = l1 ++ (firstMax c cs) :: l2
      ∧ ∀ p ∈ l1, p.2 < (firstMax c cs).2)
  ∧ (∀ p ∈ c :: cs, p.2 ≤ (firstMax c cs).2)
  ∧ PredictiveRouter.predict_next threshold st A =
      (if threshold ≤ ((firstMax c cs).2 : ℚ) / (countsTotal (c :: cs) : ℚ)
       then some (firstMax c cs).1 else none,
       ((firstMax c cs).2 : ℚ) / (countsTotal (c :: cs) : ℚ))
  ∧ (∀ (counts : List (String × Nat)) (to_agent : String),
      (bumpCounter counts to_agent).map Prod.fst =
        (if to_agent ∈ counts.map Prod.fst then counts.map Prod.fst
         else counts.map Prod.fst ++ [to_agent])) := by
  refine ⟨firstMax_split cs c, ?_, predict_next_eval threshold st A c cs hlk, bumpCounter_order⟩
  intro p hp
  rcases List.mem_cons.mp hp with h | h
  · rw [h]; exact (firstMax_le cs c).1
  · exact (firstMax_le cs c).2 p h

/-- A router that observed A→B once then A→C once (a tie). -/
def routerTie : RouterState :=
  PredictiveRouter.record_transition
    (PredictiveRouter.record_transition freshRouter "A" "B") "A" "C"

/-- Witness for C5: the tie-break theorem applied to a router holding the
tie A→B (1), A→C (1); the first-recorded successor B is the candidate. -/
theorem c5_witness :
    (∃ l1 l2, [("B", 1), ("C", 1)] = l1 ++ (firstMax ("B", 1) [("C", 1)]) :: l2
      ∧ ∀ p ∈ l1, p.2 < (firstMax ("B", 1) [("C", 1)]).2)
  ∧ (∀ p ∈ [("B", 1), ("C", 1)], p.2 ≤ (firstMax ("B", 1) [("C", 1)]).2)
  ∧ PredictiveRouter.predict_next (1/2) routerTie "A" =
      (if (1/2 : ℚ) ≤ ((firstMax ("B", 1) [("C", 1)]).2 : ℚ)
            / (countsTotal [("B", 1), ("C", 1)] : ℚ)
       then some (firstMax ("B", 1) [("C", 1)]).1 else none,
       ((firstMax ("B", 1) [("C", 1)]).2 : ℚ) / (countsTotal [("B", 1), ("C", 1)] : ℚ))
  ∧ (∀ (counts : List (String × Nat)) (to_agent : String),
      (bumpCounter counts to_agent).map Prod.fst =
        (if to_agent ∈ counts.map Prod.fst then counts.map Prod.fst
         else counts.map Prod.fst ++ [to_agent])) :=
  c5_tie_break (1/2) routerTie "A" ("B", 1) [("C", 1)] (by decide) (by decide)

lemma ingest_eq_fold :
    ∀ (s : List String) (st : RouterState),
      PredictiveRouter.ingest_trace st s =
        (consecPairs s).foldl
          (fun r p => PredictiveRouter.record_transition r p.1 p.2) st := by
  intro s
  induction s with
  | nil => intro st; rfl
  | cons a rest ih =>
    intro st
    cases rest with
    | nil => rfl
    | cons b rest2 =>
      have h1 : PredictiveRouter.ingest_trace st (a :: b :: rest2)
          = PredictiveRouter.ingest_trace
              (PredictiveRouter.record_transition st a b) (b :: rest2) := rfl
      rw [h1, ih]
      rfl

lemma ingest_xyz (X Y Z : String) (hXY : X ≠ Y) :
    (PredictiveRouter.ingest_trace freshRouter [X, Y, Z]).transitions
      = [(X, [(Y, 1)]), (Y, [(Z, 1)])] := by
  show (PredictiveRouter.record_transition
      (PredictiveRouter.record_transition freshRouter X Y) Y Z).transitions = _
  unfold PredictiveRouter.record_transition freshRouter
  simp [bumpTrans, bumpCounter, hXY]

/-- C6: ingesting a trace is exactly recording every consecutive pair in
order; in particular, on a fresh router, ingesting `[X, Y, Z]` (with the
conventional reading that adjacent trace elements differ, `X ≠ Y`, and a
threshold within its documented range `≤ 1`) makes `predict_next X` return
`(Y, 1.0)` and `predict_next Y` return `(Z, 1.0)`. -/
theorem c6_trace_ingestion :
    (∀ (st : RouterState) (s : List String),
      PredictiveRouter.ingest_trace st s =
        (consecPairs s).foldl
          (fun r p => PredictiveRouter.record_transition r p.1 p.2) st)
  ∧ (∀ (threshold : ℚ) (X Y Z : String), X ≠ Y → threshold ≤ 1 →
      PredictiveRouter.predict_next threshold
          (PredictiveRouter.ingest_trace freshRouter [X, Y, Z]) X = (some Y, 1)
      ∧ PredictiveRouter.predict_next threshold
          (PredictiveRouter.ingest_trace freshRouter [X, Y, Z]) Y = (some Z, 1)) := by
  constructor
  · intro st s; exact ingest_eq_fold s st
  · intro threshold X Y Z hXY hth
    have ht := ingest_xyz X Y Z hXY
    constructor
    · have hlk : lookupTrans
          (PredictiveRouter.ingest_trace freshRouter [X, Y, Z]).transitions X
          = some [(Y, 1)] := by
        rw [ht]; simp [lookupTrans]
      rw [predict_next_eval threshold _ X (Y, 1) [] hlk]
      have hconf : (((firstMax (Y, 1) []).2 : Nat) : ℚ)
          / ((countsTotal [(Y, 1)] : Nat) : ℚ) = 1 := by
        norm_num [firstMax, countsTotal]
      rw [hconf, if_pos hth]
      rfl
    · have hlk : lookupTrans
          (PredictiveRouter.ingest_trace freshRouter [X, Y, Z]).transitions Y
          = some [(Z, 1)] := by
        rw [ht]; simp [lookupTrans, hXY]
      rw [predict_next_eval threshold _ Y (Z, 1) [] hlk]
      have hconf : (((firstMax (Z, 1) []).2 : Nat) : ℚ)
          / ((countsTotal [(Z, 1)] : Nat) : ℚ) = 1 := by
        norm_num [firstMax, countsTotal]
      rw [hconf, if_pos hth]
      rfl

/-- Witness for C6: the trace-ingestion theorem at the spec's concrete
example `ingestTrace(["X","Y","Z"])` with the default threshold 0.7. -/
theorem c6_witness :
    PredictiveRouter.predict_next (7/10)
        (PredictiveRouter.ingest_trace freshRouter ["X", "Y", "Z"]) "X" = (some "Y", 1)
  ∧ PredictiveRouter.predict_next (7/10)
        (PredictiveRouter.ingest_trace freshRouter ["X", "Y", "Z"]) "Y" = (some "Z", 1) :=
  c6_trace_ingestion.2 (7/10) "X" "Y" "Z" (by decide) (by norm_num)

/-- The state-relevant operations of a `PredictiveRouter`'s public surface
(`predict_next`, `should_preload` and `stats` are read-only; we keep one
read-only representative). -/
inductive RouterOp where
  | record (from_agent to_agent : String)
  | ingest (trace : List String)
  | predict (agent : String)

/-- Apply one router operation to the router state. -/
def applyRouterOp (st : RouterState) : RouterOp → RouterState
  | RouterOp.record f t => PredictiveRouter.record_transition st f t
  | RouterOp.ingest s => PredictiveRouter.ingest_trace st s
  | RouterOp.predict _ => st

/-- First-match count of a successor inside a `Counter`. -/
def countFor : List (String × Nat) → String → Nat
  | [], _ => 0
  | (a, n) :: rest, b => if a = b then n else countFor rest b

/-- `sum(TransitionTable[A].values())` (0 when `A` is unknown). -/
def outgoingTotal (st : RouterState) (A : String) : Nat :=
  countsTotal ((lookupTrans st.transitions A).getD [])

/-- `TransitionTable[A][B]` (0 when absent). -/
def transCount (st : RouterState) (A B : String) : Nat :=
  countFor ((lookupTrans st.transitions A).getD []) B

/-- How many `record_transition(A, *)` calls one operation performs
(`ingest_trace` records every consecutive pair of its trace). -/
def recordCallsFrom (A : String) : RouterOp → Nat
  | RouterOp.record f _ => if f = A then 1 else 0
  | RouterOp.ingest s =>
    ((consecPairs s).map (fun p => if p.1 = A then 1 else 0)).sum
  | RouterOp.predict _ => 0

lemma countsTotal_cons (a : String) (n : Nat) (l : List (String × Nat)) :
    countsTotal ((a, n) :: l) = n + countsTotal l := by
  simp [countsTotal]

lemma countsTotal_bump (counts : List (String × Nat)) (t : String) :
    countsTotal (bumpCounter counts t) = countsTotal counts + 1 := by
  induction counts with
  | nil => simp [bumpCounter, countsTotal]
  | cons q rest ih =>
    obtain ⟨a, n⟩ := q
    unfold bumpCounter
    by_cases h : a = t
    · rw [if_pos h, countsTotal_cons, countsTotal_cons]
      omega
    · rw [if_neg h, countsTotal_cons, countsTotal_cons, ih]
      omega

lemma lookup_bumpTrans_self (ts : List (String × List (String × Nat))) (f t : String) :
    (lookupTrans (bumpTrans ts f t) f).getD [] =
      bumpCounter ((lookupTrans ts f).getD []) t := by
  induction ts with
  | nil => simp [bumpTrans, lookupTrans, bumpCounter]
  | cons q rest ih =>
    obtain ⟨a, c⟩ := q
    unfold bumpTrans
    by_cases h : a = f
    · rw [if_pos h]
      simp [lookupTrans, h]
    · rw [if_neg h]
      simp only [lookupTrans, if_neg h]
      exact ih

lemma lookup_bumpTrans_other (ts : List (String × List (String × Nat)))
    (f t A : String) (h : A ≠ f) :
    lookupTrans (bumpTrans ts f t) A = lookupTrans ts A := by
  induction ts with
  | nil =>
    have : f ≠ A := Ne.symm h
    simp [bumpTrans, lookupTrans, this]
  | cons q rest ih =>
    obtain ⟨a, c⟩ := q
    unfold bumpTrans
    by_cases h2 : a = f
    · rw [if_pos h2]
      have ha : a ≠ A := by rw [h2]; exact Ne.symm h
      simp [lookupTrans, ha]
    · rw [if_neg h2]
      by_cases h3 : a = A
      · simp [lookupTrans, h3]
      · simp only [lookupTrans, if_neg h3]
        exact ih

lemma outgoing_record (st : RouterState) (f t A : String) :
    outgoingTotal (PredictiveRouter.record_transition st f t) A
      = outgoingTotal st A + (if f = A then 1 else 0) := by
  unfold outgoingTotal PredictiveRouter.record_transition
  by_cases h : A = f
  · subst h
    simp only [lookup_bumpTrans_self, countsTotal_bump]
    simp
  · rw [lookup_bumpTrans_other st.transitions f t A h, if_neg (Ne.symm h)]
    omega

lemma outgoing_ingest :
    ∀ (s : List String) (st : RouterState) (A : String),
      outgoingTotal (PredictiveRouter.ingest_trace st s) A
        = outgoingTotal st A
          + ((consecPairs s).map (fun p => if p.1 = A then 1 else 0)).sum := by
  intro s
  induction s with
  | nil => intro st A; simp [PredictiveRouter.ingest_trace, consecPairs]
  | cons a rest ih =>
    intro st A
    cases rest with
    | nil => simp [PredictiveRouter.ingest_trace, consecPairs]
    | cons b rest2 =>
      have h1 : PredictiveRouter.ingest_trace st (a :: b :: rest2)
          = PredictiveRouter.ingest_trace
              (PredictiveRouter.record_transition st a b) (b :: rest2) := rfl
      rw [h1, ih, outgoing_record]
      simp only [consecPairs, List.map_cons, List.sum_cons]
      omega

lemma foldl_outgoing :
    ∀ (ops : List RouterOp) (st : RouterState) (A : String),
      outgoingTotal (ops.foldl applyRouterOp st) A
        = outgoingTotal st A + (ops.map (recordCallsFrom A)).sum := by
  intro ops
  induction ops with
  | nil => intro st A; simp
  | cons op rest ih =>
    intro st A
    rw [List.foldl_cons, ih, List.map_cons, List.sum_cons]
    cases op with
    | record f t =>
      show outgoingTotal (PredictiveRouter.record_transition st f t) A + _ = _
      rw [outgoing_record]
      simp [recordCallsFrom]
      omega
    | ingest s =>
      show outgoingTotal (PredictiveRouter.ingest_trace st s) A + _ = _
      rw [outgoing_ingest]
      simp [recordCallsFrom]
      omega
    | predict a =>
      simp [recordCallsFrom, applyRouterOp]

lemma countFor_bump (counts : List (String × Nat)) (t B : String) :
    countFor counts B ≤ countFor (bumpCounter counts t) B := by
  induction counts with
  | nil => exact Nat.zero_le _
  | cons q rest ih =>
    obtain ⟨a, n⟩ := q
    unfold bumpCounter
    by_cases h : a = t
    · rw [if_pos h]
      unfold countFor
      by_cases h2 : a = B
      · rw [if_pos h2, if_pos h2]; omega
      · rw [if_neg h2, if_neg h2]
    · rw [if_neg h]
      unfold countFor
      by_cases h2 : a = B
      · rw [if_pos h2, if_pos h2]
      · rw [if_neg h2, if_neg h2]; exact ih

lemma transCount_record (st : RouterState) (f t A B : String) :
    transCount st A B ≤ transCount (PredictiveRouter.record_transition st f t) A B := by
  unfold transCount PredictiveRouter.record_transition
  by_cases h : A = f
  · subst h
    simp only [lookup_bumpTrans_self]
    exact countFor_bump _ _ _
  · rw [lookup_bumpTrans_other st.transitions f t A h]

lemma transCount_ingest :
    ∀ (s : List String) (st : RouterState) (A B : String),
      transCount st A B ≤ transCount (PredictiveRouter.ingest_trace st s) A B := by
  intro s
  induction s with
  | nil => intro st A B; exact le_refl _
  | cons a rest ih =>
    intro st A B
    cases rest with
    | nil => exact le_refl _
    | cons b rest2 =>
      have h1 : PredictiveRouter.ingest_trace st (a :: b :: rest2)
          = PredictiveRouter.ingest_trace
              (PredictiveRouter.record_transition st a b) (b :: rest2) := rfl
      rw [h1]
      exact le_trans (transCount_record st a b A B)
        (ih (PredictiveRouter.record_transition st a b) A B)

/-- C7: over any sequence of router operations from a fresh router, the sum
of the outgoing transition counts of agent `A` equals the total number of
`record_transition(A, *)` calls performed so far (ingested traces record
every consecutive pair); and no operation ever decreases any individual
transition count, so every count grows monotonically. -/
theorem c7_router_accounting :
    (∀ (ops : List RouterOp) (A : String),
      outgoingTotal (ops.foldl applyRouterOp freshRouter) A
        = (ops.map (recordCallsFrom A)).sum)
  ∧ (∀ (st : RouterState) (op : RouterOp) (A B : String),
      transCount st A B ≤ transCount (applyRouterOp st op) A B) := by
  constructor
  · intro ops A
    rw [foldl_outgoing ops freshRouter A]
    simp [outgoingTotal, freshRouter, lookupTrans, countsTotal]
  · intro st op A B
    cases op with
    | record f t => exact transCount_record st f t A B
    | ingest s => exact transCount_ingest s st A B
    | predict a => exact le_refl _

lemma chainStepPreload_frame (env : ChainEnv) (a : String) (st : ChainState) :
    (chainStepPreload env a st).cache = st.cache
  ∧ (chainStepPreload env a st).router = st.router
  ∧ (chainStepPreload env a st).results = st.results
  ∧ (chainStepPreload env a st).realCalls = st.realCalls
  ∧ (chainStepPreload env a st).current_input = st.current_input := by
  refine ⟨?_, ?_, ?_, ?_, ?_⟩ <;>
    (unfold chainStepPreload; split <;> first | rfl | (split <;> rfl))

lemma chainStepRoute_frame (env : ChainEnv) (a : String) (n : Option String)
    (st : ChainState) :
    (chainStepRoute env a n st).cache = st.cache
  ∧ (chainStepRoute env a n st).results = st.results
  ∧ (chainStepRoute env a n st).realCalls = st.realCalls
  ∧ (chainStepRoute env a n st).current_input = st.current_input := by
  cases n with
  | none => exact ⟨rfl, rfl, rfl, rfl⟩
  | some nxt =>
    have h := chainStepPreload_frame env a
      { st with router := PredictiveRouter.record_transition st.router a nxt }
    exact ⟨h.1, h.2.2.1, h.2.2.2.1, h.2.2.2.2⟩

lemma chainStepRoute_router (env : ChainEnv) (a : String) (n : Option String)
    (st : ChainState) :
    (chainStepRoute env a n st).router =
      (match n with
       | none => st.router
       | some nxt => PredictiveRouter.record_transition st.router a nxt) := by
  cases n with
  | none => rfl
  | some nxt =>
    have h := chainStepPreload_frame env a
      { st with router := PredictiveRouter.record_transition st.router a nxt }
    exact h.2.1

lemma chainStepCore_eq (env : ChainEnv) (i : Nat) (a : String) (st : ChainState) :
    chainStepCore env i a st =
      { cache := (BedrockAgentOptimizer.invoke_agent env.invoke env.ttl env.now st.cache
          a ⟨st.current_input, sessionId env.now⟩ ⟨sessionId env.now⟩).2.1
        router := st.router
        preloaded := st.preloaded.erase a
        results := st.results ++
          [⟨(BedrockAgentOptimizer.invoke_agent env.invoke env.ttl env.now st.cache
              a ⟨st.current_input, sessionId env.now⟩ ⟨sessionId env.now⟩).1.agent_id,
            (BedrockAgentOptimizer.invoke_agent env.invoke env.ttl env.now st.cache
              a ⟨st.current_input, sessionId env.now⟩ ⟨sessionId env.now⟩).1.output,
            (BedrockAgentOptimizer.invoke_agent env.invoke env.ttl env.now st.cache
              a ⟨st.current_input, sessionId env.now⟩ ⟨sessionId env.now⟩).1.timestamp,
            env.lat i⟩]
        realCalls := st.realCalls ++
          (if (BedrockAgentOptimizer.invoke_agent env.invoke env.ttl env.now st.cache
              a ⟨st.current_input, sessionId env.now⟩ ⟨sessionId env.now⟩).2.2
           then [a] else [])
        probeCalls := st.probeCalls
        current_input := (BedrockAgentOptimizer.invoke_agent env.invoke env.ttl env.now
          st.cache a ⟨st.current_input, sessionId env.now⟩ ⟨sessionId env.now⟩).1.output } :=
  rfl

lemma invoke_agent_miss (invoke : String → String → String → String) (ttl now : Nat)
    (cache : CacheState) (a : String) (p : Payload) (ctx : ChainContext)
    (h : storeGet now cache.store (buildKey a p ctx) = none) :
    BedrockAgentOptimizer.invoke_agent invoke ttl now cache a p ctx =
      (⟨a, invoke a p.session_id p.input_text, now⟩,
       { store := (buildKey a p ctx,
            ⟨⟨a, invoke a p.session_id p.input_text, now⟩, now + ttl⟩) :: cache.store
         hits := cache.hits
         misses := cache.misses + 1 },
       true) := by
  unfold BedrockAgentOptimizer.invoke_agent AgentResponseCache.get AgentResponseCache.put
  rw [h]

lemma invoke_agent_hit (invoke : String → String → String → String) (ttl now : Nat)
    (cache : CacheState) (a : String) (p : Payload) (ctx : ChainContext)
    (v : AgentResult) (h : storeGet now cache.store (buildKey a p ctx) = some v) :
    BedrockAgentOptimizer.invoke_agent invoke ttl now cache a p ctx =
      (v, { store := cache.store, hits := cache.hits + 1, misses := cache.misses },
       false) := by
  unfold BedrockAgentOptimizer.invoke_agent AgentResponseCache.get
  rw [h]

lemma storeGet_none_of_lookup (now : Nat) (S : List (CacheKey × StoredEntry))
    (k : CacheKey) (h : storeLookup S k = none) : storeGet now S k = none := by
  unfold storeGet
  rw [h]

lemma storeLookup_eq_none :
    ∀ (S : List (CacheKey × StoredEntry)) (k : CacheKey),
      (∀ q ∈ S, q.1 ≠ k) → storeLookup S k = none := by
  intro S
  induction S with
  | nil => intro k _; rfl
  | cons q rest ih =>
    intro k h
    obtain ⟨k1, e1⟩ := q
    unfold storeLookup
    rw [if_neg (h (k1, e1) (List.mem_cons_self _ _))]
    exact ih k (fun p hp => h p (List.mem_cons_of_mem _ hp))

lemma storeLookup_mem_nodup :
    ∀ (L : List (CacheKey × StoredEntry)),
      (L.map Prod.fst).Nodup → ∀ p ∈ L, storeLookup L p.1 = some p.2 := by
  intro L
  induction L with
  | nil => intro _ p hp; cases hp
  | cons q rest ih =>
    intro hnd p hp
    obtain ⟨k1, e1⟩ := q
    rw [List.map_cons] at hnd
    have hnd2 := List.nodup_cons.mp hnd
    rcases List.mem_cons.mp hp with h | h
    · subst h
      unfold storeLookup
      rw [if_pos rfl]
    · unfold storeLookup
      have hk : k1 ≠ p.1 := by
        intro he
        have hmem : p.1 ∈ rest.map Prod.fst := List.mem_map_of_mem Prod.fst h
        rw [← he] at hmem
        exact hnd2.1 hmem
      rw [if_neg hk]
      exact ih hnd2.2 p h

/-- The sequence of cache entries a cold run writes along a chain: at each
step the key is (agent, current input, session) and the stored value is the
response produced by the invocation, expiring at `now + ttl`. -/
def trajEntries (invoke : String → String → String → String) (sid : String)
    (now ttl : Nat) : List String → String → List (CacheKey × StoredEntry)
  | [], _ => []
  | a :: rest, inp =>
    (⟨a, ⟨inp, sid⟩, ⟨sid⟩⟩, ⟨⟨a, invoke a sid inp, now⟩, now + ttl⟩) ::
      trajEntries invoke sid now ttl rest (invoke a sid inp)

lemma trajEntries_agents (invoke : String → String → String → String) (sid : String)
    (now ttl : Nat) :
    ∀ (agents : List String) (inp : String),
      (trajEntries invoke sid now ttl agents inp).map (fun q => q.1.agent_id) = agents := by
  intro agents
  induction agents with
  | nil => intro inp; rfl
  | cons a rest ih =>
    intro inp
    show ((⟨a, ⟨inp, sid⟩, ⟨sid⟩⟩, ⟨⟨a, invoke a sid inp, now⟩, now + ttl⟩) ::
        trajEntries invoke sid now ttl rest (invoke a sid inp)).map (fun q => q.1.agent_id)
      = a :: rest
    rw [List.map_cons, ih]

lemma runChainGo_cold (env : ChainEnv) :
    ∀ (agents : List String) (i : Nat) (st : ChainState),
      agents.Nodup →
      (∀ q ∈ st.cache.store, q.1.agent_id ∉ agents) →
      (runChainGo env i agents st).realCalls = st.realCalls ++ agents
      ∧ (runChainGo env i agents st).cache.store
          = (trajEntries env.invoke (sessionId env.now) env.now env.ttl agents
              st.current_input).reverse ++ st.cache.store := by
  intro agents
  induction agents with
  | nil =>
    intro i st _ _
    simp [runChainGo, trajEntries]
  | cons a rest ih =>
    intro i st hnd hdisj
    have hnone : storeGet env.now st.cache.store
        (buildKey a ⟨st.current_input, sessionId env.now⟩ ⟨sessionId env.now⟩) = none := by
      apply storeGet_none_of_lookup
      apply storeLookup_eq_none
      intro q hq he
      apply hdisj q hq
      rw [show q.1.agent_id = a from congrArg CacheKey.agent_id he]
      exact List.mem_cons_self a rest
    have hr := invoke_agent_miss env.invoke env.ttl env.now st.cache a
      ⟨st.current_input, sessionId env.now⟩ ⟨sessionId env.now⟩ hnone
    have hframe := chainStepRoute_frame env a rest.head? (chainStepCore env i a st)
    have hcstore : (chainStepCore env i a st).cache.store
        = (buildKey a ⟨st.current_input, sessionId env.now⟩ ⟨sessionId env.now⟩,
           ⟨⟨a, env.invoke a (sessionId env.now) st.current_input, env.now⟩,
            env.now + env.ttl⟩) :: st.cache.store := by
      rw [chainStepCore_eq, hr]
    have hcreal : (chainStepCore env i a st).realCalls = st.realCalls ++ [a] := by
      rw [chainStepCore_eq, hr]
      rfl
    have hcinp : (chainStepCore env i a st).current_input
        = env.invoke a (sessionId env.now) st.current_input := by
      rw [chainStepCore_eq, hr]
    have h1store : (chainStepRoute env a rest.head? (chainStepCore env i a st)).cache.store
        = (buildKey a ⟨st.current_input, sessionId env.now⟩ ⟨sessionId env.now⟩,
           ⟨⟨a, env.invoke a (sessionId env.now) st.current_input, env.now⟩,
            env.now + env.ttl⟩) :: st.cache.store := by
      rw [hframe.1, hcstore]
    have h1real : (chainStepRoute env a rest.head? (chainStepCore env i a st)).realCalls
        = st.realCalls ++ [a] := by
      rw [hframe.2.2.1, hcreal]
    have h1inp : (chainStepRoute env a rest.head? (chainStepCore env i a st)).current_input
        = env.invoke a (sessionId env.now) st.current_input := by
      rw [hframe.2.2.2, hcinp]
    have hdisj2 : ∀ q ∈ (chainStepRoute env a rest.head?
        (chainStepCore env i a st)).cache.store, q.1.agent_id ∉ rest := by
      intro q hq
      rw [h1store] at hq
      rcases List.mem_cons.mp hq with h | h
      · rw [h]
        exact (List.nodup_cons.mp hnd).1
      · intro hmem
        exact hdisj q h (List.mem_cons_of_mem a hmem)
    have hrest := ih (i + 1) (chainStepRoute env a rest.head? (chainStepCore env i a st))
      (List.nodup_cons.mp hnd).2 hdisj2
    constructor
    · show (runChainGo env (i + 1) rest
          (chainStepRoute env a rest.head? (chainStepCore env i a st))).realCalls
        = st.realCalls ++ (a :: rest)
      rw [hrest.1, h1real, List.append_assoc]
      rfl
    · show (runChainGo env (i + 1) rest
          (chainStepRoute env a rest.head? (chainStepCore env i a st))).cache.store
        = (trajEntries env.invoke (sessionId env.now) env.now env.ttl (a :: rest)
            st.current_input).reverse ++ st.cache.store
      rw [hrest.2, h1inp, h1store]
      rw [show trajEntries env.invoke (sessionId env.now) env.now env.ttl (a :: rest)
            st.current_input
          = (buildKey a ⟨st.current_input, sessionId env.now⟩ ⟨sessionId env.now⟩,
             ⟨⟨a, env.invoke a (sessionId env.now) st.current_input, env.now⟩,
              env.now + env.ttl⟩)
            :: trajEntries env.invoke (sessionId env.now) env.now env.ttl rest
                (env.invoke a (sessionId env.now) st.current_input) from rfl]
      rw [List.reverse_cons, List.append_assoc]
      rfl

lemma runChainGo_warm (env : ChainEnv) (httl : 0 < env.ttl) :
    ∀ (agents : List String) (i : Nat) (st : ChainState),
      (∀ p ∈ trajEntries env.invoke (sessionId env.now) env.now env.ttl agents
          st.current_input, storeLookup st.cache.store p.1 = some p.2) →
      (runChainGo env i agents st).realCalls = st.realCalls := by
  intro agents
  induction agents with
  | nil => intro i st _; rfl
  | cons a rest ih =>
    intro i st hentries
    have hhead := hentries
      (⟨a, ⟨st.current_input, sessionId env.now⟩, ⟨sessionId env.now⟩⟩,
       ⟨⟨a, env.invoke a (sessionId env.now) st.current_input, env.now⟩,
        env.now + env.ttl⟩)
      (List.mem_cons_self _ _)
    have hget : storeGet env.now st.cache.store
        (buildKey a ⟨st.current_input, sessionId env.now⟩ ⟨sessionId env.now⟩)
        = some ⟨a, env.invoke a (sessionId env.now) st.current_input, env.now⟩ := by
      unfold storeGet
      rw [show storeLookup st.cache.store
          (buildKey a ⟨st.current_input, sessionId env.now⟩ ⟨sessionId env.now⟩)
          = some ⟨⟨a, env.invoke a (sessionId env.now) st.current_input, env.now⟩,
              env.now + env.ttl⟩ from hhead]
      show (if env.now < env.now + env.ttl
          then some (⟨a, env.invoke a (sessionId env.now) st.current_input, env.now⟩ : AgentResult)
          else none)
        = some ⟨a, env.invoke a (sessionId env.now) st.current_input, env.now⟩
      rw [if_pos (Nat.lt_add_of_pos_right httl)]
    have hr := invoke_agent_hit env.invoke env.ttl env.now st.cache a
      ⟨st.current_input, sessionId env.now⟩ ⟨sessionId env.now⟩ _ hget
    have hframe := chainStepRoute_frame env a rest.head? (chainStepCore env i a st)
    have hcstore : (chainStepCore env i a st).cache.store = st.cache.store := by
      rw [chainStepCore_eq, hr]
    have hcreal : (chainStepCore env i a st).realCalls = st.realCalls := by
      rw [chainStepCore_eq, hr]
      simp
    have hcinp : (chainStepCore env i a st).current_input
        = env.invoke a (sessionId env.now) st.current_input := by
      rw [chainStepCore_eq, hr]
    have hnext : ∀ p ∈ trajEntries env.invoke (sessionId env.now) env.now env.ttl rest
        ((chainStepRoute env a rest.head? (chainStepCore env i a st)).current_input),
        storeLookup (chainStepRoute env a rest.head?
          (chainStepCore env i a st)).cache.store p.1 = some p.2 := by
      intro p hp
      rw [hframe.1, hcstore]
      apply hentries
      rw [hframe.2.2.2, hcinp] at hp
      exact List.mem_cons_of_mem _ hp
    have hrest := ih (i + 1)
      (chainStepRoute env a rest.head? (chainStepCore env i a st)) hnext
    calc (runChainGo env i (a :: rest) st).realCalls
        = (runChainGo env (i + 1) rest
            (chainStepRoute env a rest.head? (chainStepCore env i a st))).realCalls := rfl
      _ = (chainStepRoute env a rest.head? (chainStepCore env i a st)).realCalls := hrest
      _ = (chainStepCore env i a st).realCalls := hframe.2.2.1
      _ = st.realCalls := hcreal

/-- An external invocation capability returning a constant completion. -/
def invConst : String → String → String → String := fun _ _ _ => "out"

/-- An external invocation capability echoing its input text. -/
def invIdent : String → String → String → String := fun _ _ x => x

/-- First run of chain ["A"] on input "x", starting at second 0 with a cold
cache (TTL 300 s, threshold 0.7). -/
def firstRun : ChainState :=
  BedrockAgentOptimizer.run_chain
    ⟨invConst, 300, 7/10, ⟨true, fun _ => true⟩, fun _ => 0, 0⟩
    ⟨[], 0, 0⟩ freshRouter [] ["A"] "x"

/-- The identical second run, one second later (every cache entry still far
from its 300 s expiry), continuing from the first run's state. -/
def secondRun : ChainState :=
  BedrockAgentOptimizer.run_chain
    ⟨invConst, 300, 7/10, ⟨true, fun _ => true⟩, fun _ => 0, 1⟩
    firstRun.cache firstRun.router firstRun.preloaded ["A"] "x"

/-- A cold run of chain ["A", "A"] under an echoing agent. -/
def repeatRun : ChainState :=
  BedrockAgentOptimizer.run_chain
    ⟨invIdent, 300, 7/10, ⟨false, fun _ => true⟩, fun _ => 0, 0⟩
    ⟨[], 0, 0⟩ freshRouter [] ["A", "A"] "x"

lemma runChain_echo_repeat (env : ChainEnv) (a inp : String)
    (hecho : env.invoke a (sessionId env.now) inp = inp) (httl : 0 < env.ttl) :
    (BedrockAgentOptimizer.run_chain env ⟨[], 0, 0⟩ freshRouter [] [a, a] inp).realCalls
      = [a] := by
  have hr0 := invoke_agent_miss env.invoke env.ttl env.now ⟨[], 0, 0⟩ a
    ⟨inp, sessionId env.now⟩ ⟨sessionId env.now⟩ rfl
  have hframe := chainStepRoute_frame env a ([a].head?)
    (chainStepCore env 0 a ⟨⟨[], 0, 0⟩, freshRouter, [], [], [], [], inp⟩)
  have hst1cache : (chainStepRoute env a ([a].head?)
      (chainStepCore env 0 a ⟨⟨[], 0, 0⟩, freshRouter, [], [], [], [], inp⟩)).cache.store
      = [(buildKey a ⟨inp, sessionId env.now⟩ ⟨sessionId env.now⟩,
          ⟨⟨a, env.invoke a (sessionId env.now) inp, env.now⟩, env.now + env.ttl⟩)] := by
    rw [hframe.1, chainStepCore_eq, hr0]
  have hst1real : (chainStepRoute env a ([a].head?)
      (chainStepCore env 0 a ⟨⟨[], 0, 0⟩, freshRouter, [], [], [], [], inp⟩)).realCalls
      = [a] := by
    rw [hframe.2.2.1, chainStepCore_eq, hr0]
    rfl
  have hst1inp : (chainStepRoute env a ([a].head?)
      (chainStepCore env 0 a ⟨⟨[], 0, 0⟩, freshRouter, [], [], [], [], inp⟩)).current_input
      = inp := by
    rw [hframe.2.2.2, chainStepCore_eq, hr0]
    exact hecho
  have hget : storeGet env.now
      (chainStepRoute env a ([a].head?)
        (chainStepCore env 0 a ⟨⟨[], 0, 0⟩, freshRouter, [], [], [], [], inp⟩)).cache.store
      (buildKey a
        ⟨(chainStepRoute env a ([a].head?)
            (chainStepCore env 0 a ⟨⟨[], 0, 0⟩, freshRouter, [], [], [], [], inp⟩)).current_input,
          sessionId env.now⟩
        ⟨sessionId env.now⟩)
      = some ⟨a, env.invoke a (sessionId env.now) inp, env.now⟩ := by
    rw [hst1cache, hst1inp]
    unfold storeGet storeLookup
    rw [if_pos rfl]
    show (if env.now < env.now + env.ttl
        then some (⟨a, env.invoke a (sessionId env.now) inp, env.now⟩ : AgentResult)
        else none)
      = some ⟨a, env.invoke a (sessionId env.now) inp, env.now⟩
    rw [if_pos (Nat.lt_add_of_pos_right httl)]
  have hr1 := invoke_agent_hit env.invoke env.ttl env.now
    (chainStepRoute env a ([a].head?)
      (chainStepCore env 0 a ⟨⟨[], 0, 0⟩, freshRouter, [], [], [], [], inp⟩)).cache a
    ⟨(chainStepRoute env a ([a].head?)
        (chainStepCore env 0 a ⟨⟨[], 0, 0⟩, freshRouter, [], [], [], [], inp⟩)).current_input,
      sessionId env.now⟩
    ⟨sessionId env.now⟩ _ hget
  calc (BedrockAgentOptimizer.run_chain env ⟨[], 0, 0⟩ freshRouter [] [a, a] inp).realCalls
      = (chainStepCore env 1 a
          (chainStepRoute env a ([a].head?)
            (chainStepCore env 0 a ⟨⟨[], 0, 0⟩, freshRouter, [], [], [], [], inp⟩))).realCalls := rfl
    _ = [a] := by
        rw [chainStepCore_eq, hr1]
        show (chainStepRoute env a ([a].head?)
            (chainStepCore env 0 a ⟨⟨[], 0, 0⟩, freshRouter, [], [], [], [], inp⟩)).realCalls
            ++ [] = [a]
        rw [List.append_nil, hst1real]

/-- C1 counterexample: (i) after the first run, every cache entry is
unexpired at second 1, yet the identical second run still performs one real
invocation (not zero) — the session id derived from the start second is part
of the cache fingerprint, so the second run's keys differ; (ii) on a cold
cache, the chain ["A", "A"] with an echoing agent performs one real
invocation for its two steps (the second step hits the entry written by the
first), so "exactly one real invocation per step" also fails as stated. -/
theorem c1_counterexample :
    (firstRun.cache.store.all fun q => decide (1 < q.2.expires_at)) = true
  ∧ secondRun.realCalls.length = 1
  ∧ repeatRun.realCalls.length = 1 := by
  refine ⟨rfl, rfl, ?_⟩
  rw [show repeatRun.realCalls = ["A"] from
    runChain_echo_repeat ⟨invIdent, 300, 7/10, ⟨false, fun _ => true⟩, fun _ => 0, 0⟩
      "A" "x" rfl (by decide)]
  rfl

/-- C1 amended: for a non-empty chain of pairwise-distinct agent ids, the
first run from a cold cache performs exactly one real invocation per step
(in chain order); and an identical second run performs zero real invocations
provided it starts within the same whole second (so it derives the same
session id, which is embedded in every cache fingerprint) and the TTL is
positive (so no entry has expired).  Started at a different second, the
second run misses every entry (see the counterexample). -/
theorem c1_chain_cache (inv : String → String → String → String) (ttl : Nat)
    (threshold : ℚ) (m1 m2 : PreloadMode) (l1 l2 : Nat → ℚ) (t : Nat)
    (router0 : RouterState) (pre0 : List String) (agents : List String)
    (input : String) (_hne : agents ≠ []) (hnd : agents.Nodup) (httl : 0 < ttl) :
    (BedrockAgentOptimizer.run_chain ⟨inv, ttl, threshold, m1, l1, t⟩
        ⟨[], 0, 0⟩ router0 pre0 agents input).realCalls = agents
  ∧ (BedrockAgentOptimizer.run_chain ⟨inv, ttl, threshold, m2, l2, t⟩
        (BedrockAgentOptimizer.run_chain ⟨inv, ttl, threshold, m1, l1, t⟩
          ⟨[], 0, 0⟩ router0 pre0 agents input).cache
        (BedrockAgentOptimizer.run_chain ⟨inv, ttl, threshold, m1, l1, t⟩
          ⟨[], 0, 0⟩ router0 pre0 agents input).router
        (BedrockAgentOptimizer.run_chain ⟨inv, ttl, threshold, m1, l1, t⟩
          ⟨[], 0, 0⟩ router0 pre0 agents input).preloaded
        agents input).realCalls = [] := by
  have hcold := runChainGo_cold ⟨inv, ttl, threshold, m1, l1, t⟩ agents 0
    ⟨⟨[], 0, 0⟩, router0, pre0, [], [], [], input⟩ hnd (by intro q hq; cases hq)
  have hrun1 : (BedrockAgentOptimizer.run_chain ⟨inv, ttl, threshold, m1, l1, t⟩
      ⟨[], 0, 0⟩ router0 pre0 agents input).realCalls = agents := by
    show (runChainGo ⟨inv, ttl, threshold, m1, l1, t⟩ 0 agents
      ⟨⟨[], 0, 0⟩, router0, pre0, [], [], [], input⟩).realCalls = agents
    rw [hcold.1]
    rfl
  refine ⟨hrun1, ?_⟩
  have hstore : (BedrockAgentOptimizer.run_chain ⟨inv, ttl, threshold, m1, l1, t⟩
      ⟨[], 0, 0⟩ router0 pre0 agents input).cache.store
      = (trajEntries inv (sessionId t) t ttl agents input).reverse := by
    have h2 := hcold.2
    simpa using h2
  have hkeys : ((trajEntries inv (sessionId t) t ttl agents input).map Prod.fst).Nodup := by
    have hmap : ((trajEntries inv (sessionId t) t ttl agents input).map Prod.fst).map
        CacheKey.agent_id = agents := by
      rw [List.map_map]
      exact trajEntries_agents inv (sessionId t) t ttl agents input
    have hmnd : (((trajEntries inv (sessionId t) t ttl agents input).map Prod.fst).map
        CacheKey.agent_id).Nodup := by
      rw [hmap]; exact hnd
    exact List.Nodup.of_map _ hmnd
  have hents : ∀ p ∈ trajEntries inv (sessionId t) t ttl agents input,
      storeLookup (BedrockAgentOptimizer.run_chain ⟨inv, ttl, threshold, m1, l1, t⟩
        ⟨[], 0, 0⟩ router0 pre0 agents input).cache.store p.1 = some p.2 := by
    intro p hp
    rw [hstore]
    apply storeLookup_mem_nodup
    · rw [List.map_reverse]
      exact List.nodup_reverse.mpr hkeys
    · exact List.mem_reverse.mpr hp
  exact runChainGo_warm ⟨inv, ttl, threshold, m2, l2, t⟩ httl agents 0
    ⟨(BedrockAgentOptimizer.run_chain ⟨inv, ttl, threshold, m1, l1, t⟩
        ⟨[], 0, 0⟩ router0 pre0 agents input).cache,
     (BedrockAgentOptimizer.run_chain ⟨inv, ttl, threshold, m1, l1, t⟩
        ⟨[], 0, 0⟩ router0 pre0 agents input).router,
     (BedrockAgentOptimizer.run_chain ⟨inv, ttl, threshold, m1, l1, t⟩
        ⟨[], 0, 0⟩ router0 pre0 agents input).preloaded,
     [], [], [], input⟩ hents

/-- Witness for C1: the amended theorem applied to the chain ["A", "B"] with
TTL 300, threshold 0.7: both runs start at second 5, the first performs one
real invocation per step, the second performs none. -/
theorem c1_witness :
    ((["A", "B"] : List String) ≠ [] ∧ (["A", "B"] : List String).Nodup ∧ 0 < 300)
  ∧ ((BedrockAgentOptimizer.run_chain
        ⟨invConst, 300, 7/10, ⟨true, fun _ => true⟩, fun _ => 0, 5⟩
        ⟨[], 0, 0⟩ freshRouter [] ["A", "B"] "x").realCalls = ["A", "B"]
    ∧ (BedrockAgentOptimizer.run_chain
        ⟨invConst, 300, 7/10, ⟨true, fun _ => true⟩, fun _ => 0, 5⟩
        (BedrockAgentOptimizer.run_chain
          ⟨invConst, 300, 7/10, ⟨true, fun _ => true⟩, fun _ => 0, 5⟩
          ⟨[], 0, 0⟩ freshRouter [] ["A", "B"] "x").cache
        (BedrockAgentOptimizer.run_chain
          ⟨invConst, 300, 7/10, ⟨true, fun _ => true⟩, fun _ => 0, 5⟩
          ⟨[], 0, 0⟩ freshRouter [] ["A", "B"] "x").router
        (BedrockAgentOptimizer.run_chain
          ⟨invConst, 300, 7/10, ⟨true, fun _ => true⟩, fun _ => 0, 5⟩
          ⟨[], 0, 0⟩ freshRouter [] ["A", "B"] "x").preloaded
        ["A", "B"] "x").realCalls = []) :=
  ⟨⟨by decide, by decide, by decide⟩,
   c1_chain_cache invConst 300 (7/10) ⟨true, fun _ => true⟩ ⟨true, fun _ => true⟩
     (fun _ => 0) (fun _ => 0) 5 freshRouter [] ["A", "B"] "x"
     (by decide) (by decide) (by decide)⟩

lemma runChainGo_preload_frame (inv : String → String → String → String)
    (ttl : Nat) (threshold : ℚ) (m1 m2 : PreloadMode) (l1 l2 : Nat → ℚ) (t : Nat) :
    ∀ (agents : List String) (i : Nat) (s1 s2 : ChainState),
      s1.cache = s2.cache → s1.router = s2.router →
      s1.results.map StepResult.content = s2.results.map StepResult.content →
      s1.realCalls = s2.realCalls → s1.current_input = s2.current_input →
      (runChainGo ⟨inv, ttl, threshold, m1, l1, t⟩ i agents s1).cache
          = (runChainGo ⟨inv, ttl, threshold, m2, l2, t⟩ i agents s2).cache
      ∧ (runChainGo ⟨inv, ttl, threshold, m1, l1, t⟩ i agents s1).router
          = (runChainGo ⟨inv, ttl, threshold, m2, l2, t⟩ i agents s2).router
      ∧ (runChainGo ⟨inv, ttl, threshold, m1, l1, t⟩ i agents s1).results.map
            StepResult.content
          = (runChainGo ⟨inv, ttl, threshold, m2, l2, t⟩ i agents s2).results.map
            StepResult.content
      ∧ (runChainGo ⟨inv, ttl, threshold, m1, l1, t⟩ i agents s1).realCalls
          = (runChainGo ⟨inv, ttl, threshold, m2, l2, t⟩ i agents s2).realCalls
      ∧ (runChainGo ⟨inv, ttl, threshold, m1, l1, t⟩ i agents s1).current_input
          = (runChainGo ⟨inv, ttl, threshold, m2, l2, t⟩ i agents s2).current_input := by
  intro agents
  induction agents with
  | nil => intro i s1 s2 hc hr hres hreal hin; exact ⟨hc, hr, hres, hreal, hin⟩
  | cons a rest ih =>
    intro i s1 s2 hc hr hres hreal hin
    have hinv : BedrockAgentOptimizer.invoke_agent inv ttl t s1.cache a
        ⟨s1.current_input, sessionId t⟩ ⟨sessionId t⟩
        = BedrockAgentOptimizer.invoke_agent inv ttl t s2.cache a
        ⟨s2.current_input, sessionId t⟩ ⟨sessionId t⟩ := by
      rw [hc, hin]
    have fr1 := chainStepRoute_frame ⟨inv, ttl, threshold, m1, l1, t⟩ a rest.head?
      (chainStepCore ⟨inv, ttl, threshold, m1, l1, t⟩ i a s1)
    have fr2 := chainStepRoute_frame ⟨inv, ttl, threshold, m2, l2, t⟩ a rest.head?
      (chainStepCore ⟨inv, ttl, threshold, m2, l2, t⟩ i a s2)
    refine ih (i + 1)
      (chainStepRoute ⟨inv, ttl, threshold, m1, l1, t⟩ a rest.head?
        (chainStepCore ⟨inv, ttl, threshold, m1, l1, t⟩ i a s1))
      (chainStepRoute ⟨inv, ttl, threshold, m2, l2, t⟩ a rest.head?
        (chainStepCore ⟨inv, ttl, threshold, m2, l2, t⟩ i a s2)) ?_ ?_ ?_ ?_ ?_
    · rw [fr1.1, fr2.1]
      show (BedrockAgentOptimizer.invoke_agent inv ttl t s1.cache a
          ⟨s1.current_input, sessionId t⟩ ⟨sessionId t⟩).2.1
        = (BedrockAgentOptimizer.invoke_agent inv ttl t s2.cache a
          ⟨s2.current_input, sessionId t⟩ ⟨sessionId t⟩).2.1
      rw [hinv]
    · rw [chainStepRoute_router, chainStepRoute_router]
      cases rest.head? with
      | none => exact hr
      | some nxt =>
        show PredictiveRouter.record_transition s1.router a nxt
          = PredictiveRouter.record_transition s2.router a nxt
        rw [hr]
    · rw [fr1.2.1, fr2.2.1]
      have hx : StepResult.content
          (⟨(BedrockAgentOptimizer.invoke_agent inv ttl t s1.cache a
              ⟨s1.current_input, sessionId t⟩ ⟨sessionId t⟩).1.agent_id,
            (BedrockAgentOptimizer.invoke_agent inv ttl t s1.cache a
              ⟨s1.current_input, sessionId t⟩ ⟨sessionId t⟩).1.output,
            (BedrockAgentOptimizer.invoke_agent inv ttl t s1.cache a
              ⟨s1.current_input, sessionId t⟩ ⟨sessionId t⟩).1.timestamp, l1 i⟩ : StepResult)
          = StepResult.content
          (⟨(BedrockAgentOptimizer.invoke_agent inv ttl t s2.cache a
              ⟨s2.current_input, sessionId t⟩ ⟨sessionId t⟩).1.agent_id,
            (BedrockAgentOptimizer.invoke_agent inv ttl t s2.cache a
              ⟨s2.current_input, sessionId t⟩ ⟨sessionId t⟩).1.output,
            (BedrockAgentOptimizer.invoke_agent inv ttl t s2.cache a
              ⟨s2.current_input, sessionId t⟩ ⟨sessionId t⟩).1.timestamp, l2 i⟩ : StepResult) := by
        unfold StepResult.content
        rw [hinv]
      show (s1.results ++
          [(⟨(BedrockAgentOptimizer.invoke_agent inv ttl t s1.cache a
              ⟨s1.current_input, sessionId t⟩ ⟨sessionId t⟩).1.agent_id,
            (BedrockAgentOptimizer.invoke_agent inv ttl t s1.cache a
              ⟨s1.current_input, sessionId t⟩ ⟨sessionId t⟩).1.output,
            (BedrockAgentOptimizer.invoke_agent inv ttl t s1.cache a
              ⟨s1.current_input, sessionId t⟩ ⟨sessionId t⟩).1.timestamp,
            l1 i⟩ : StepResult)]).map
          StepResult.content
        = (s2.results ++
          [(⟨(BedrockAgentOptimizer.invoke_agent inv ttl t s2.cache a
              ⟨s2.current_input, sessionId t⟩ ⟨sessionId t⟩).1.agent_id,
            (BedrockAgentOptimizer.invoke_agent inv ttl t s2.cache a
              ⟨s2.current_input, sessionId t⟩ ⟨sessionId t⟩).1.output,
            (BedrockAgentOptimizer.invoke_agent inv ttl t s2.cache a
              ⟨s2.current_input, sessionId t⟩ ⟨sessionId t⟩).1.timestamp,
            l2 i⟩ : StepResult)]).map
          StepResult.content
      rw [List.map_append, List.map_append, hres]
      simp only [List.map_cons, List.map_nil]
      rw [hx]
    · rw [fr1.2.2.1, fr2.2.2.1]
      show s1.realCalls ++
          (if (BedrockAgentOptimizer.invoke_agent inv ttl t s1.cache a
              ⟨s1.current_input, sessionId t⟩ ⟨sessionId t⟩).2.2 then [a] else [])
        = s2.realCalls ++
          (if (BedrockAgentOptimizer.invoke_agent inv ttl t s2.cache a
              ⟨s2.current_input, sessionId t⟩ ⟨sessionId t⟩).2.2 then [a] else [])
      rw [hreal, hinv]
    · rw [fr1.2.2.2, fr2.2.2.2]
      show (BedrockAgentOptimizer.invoke_agent inv ttl t s1.cache a
          ⟨s1.current_input, sessionId t⟩ ⟨sessionId t⟩).1.output
        = (BedrockAgentOptimizer.invoke_agent inv ttl t s2.cache a
          ⟨s2.current_input, sessionId t⟩ ⟨sessionId t⟩).1.output
      rw [hinv]

/-- C8: the ordered per-step results of a chain run — projected to their
latency-independent content (agent id, output, timestamp) — together with
the real-invocation trace, the cache state and the router state, are
identical whether the speculative preload path runs normally, is disabled,
or always fails (any two preload modes, and any two latency observations):
preload outcomes never influence the chain's outputs. -/
theorem c8_preload_noninterference (inv : String → String → String → String)
    (ttl : Nat) (threshold : ℚ) (m1 m2 : PreloadMode) (l1 l2 : Nat → ℚ) (t : Nat)
    (cache : CacheState) (router : RouterState) (preloaded : List String)
    (agents : List String) (input : String) :
    (BedrockAgentOptimizer.run_chain ⟨inv, ttl, threshold, m1, l1, t⟩
        cache router preloaded agents input).results.map StepResult.content
      = (BedrockAgentOptimizer.run_chain ⟨inv, ttl, threshold, m2, l2, t⟩
        cache router preloaded agents input).results.map StepResult.content
  ∧ (BedrockAgentOptimizer.run_chain ⟨inv, ttl, threshold, m1, l1, t⟩
        cache router preloaded agents input).realCalls
      = (BedrockAgentOptimizer.run_chain ⟨inv, ttl, threshold, m2, l2, t⟩
        cache router preloaded agents input).realCalls
  ∧ (BedrockAgentOptimizer.run_chain ⟨inv, ttl, threshold, m1, l1, t⟩
        cache router preloaded agents input).cache
      = (BedrockAgentOptimizer.run_chain ⟨inv, ttl, threshold, m2, l2, t⟩
        cache router preloaded agents input).cache
  ∧ (BedrockAgentOptimizer.run_chain ⟨inv, ttl, threshold, m1, l1, t⟩
        cache router preloaded agents input).router
      = (BedrockAgentOptimizer.run_chain ⟨inv, ttl, threshold, m2, l2, t⟩
        cache router preloaded agents input).router := by
  have h := runChainGo_preload_frame inv ttl threshold m1 m2 l1 l2 t agents 0
    ⟨cache, router, preloaded, [], [], [], input⟩
    ⟨cache, router, preloaded, [], [], [], input⟩ rfl rfl rfl rfl rfl
  exact ⟨h.2.2.1, h.2.2.2.1, h.1, h.2.1⟩

lemma runChainGo_length (env : ChainEnv) :
    ∀ (agents : List String) (i : Nat) (st : ChainState),
      (runChainGo env i agents st).results.length
        = st.results.length + agents.length := by
  intro agents
  induction agents with
  | nil => intro i st; simp [runChainGo]
  | cons a rest ih =>
    intro i st
    have h := ih (i + 1) (chainStepRoute env a rest.head? (chainStepCore env i a st))
    have hroute := (chainStepRoute_frame env a rest.head? (chainStepCore env i a st)).2.1
    calc (runChainGo env i (a :: rest) st).results.length
        = (runChainGo env (i + 1) rest
            (chainStepRoute env a rest.head? (chainStepCore env i a st))).results.length := rfl
      _ = (chainStepRoute env a rest.head?
            (chainStepCore env i a st)).results.length + rest.length := h
      _ = (chainStepCore env i a st).results.length + rest.length := by rw [hroute]
      _ = st.results.length + 1 + rest.length := by
          show (st.results ++ [_]).length + rest.length
            = st.results.length + 1 + rest.length
          rw [List.length_append, List.length_singleton]
      _ = st.results.length + (a :: rest).length := by
          rw [List.length_cons]
          omega

/-- A configuration with an out-of-range prediction threshold (2 is outside
[0,1]) and no agent identifiers. -/
def badConfig : OptimizerConfig := ⟨"localhost", 6379, 300, 2, "us-east-1", []⟩

/-- C9 counterexample: `badConfig` is malformed, yet constructing the
optimizer succeeds and a chain executes to completion on it — nothing fails
at construction time, because neither `OptimizerConfig` nor
`BedrockAgentOptimizer.__init__` performs any validation. -/
theorem c9_counterexample :
    ¬ badConfig.isWellFormed
  ∧ ((BedrockAgentOptimizer.init badConfig []).runChain (fun _ _ _ => "ok")
      ⟨true, fun _ => true⟩ (fun _ => 0) 0 ["agent-1"] "hello").results.length = 1 := by
  constructor
  · intro h
    have h2 := h.2.1
    norm_num [badConfig] at h2
  · rfl

/-- C9 amended: construction performs no validation and cannot fail — every
configuration, malformed thresholds and missing agent identifiers included,
is accepted by `BedrockAgentOptimizer.init`, and chains execute normally on
the constructed optimizer, producing one result per chain step. -/
theorem c9_no_validation (config : OptimizerConfig)
    (initialStore : List (CacheKey × StoredEntry))
    (invoke : String → String → String → String) (mode : PreloadMode)
    (lat : Nat → ℚ) (now : Nat) (agents : List String) (input : String) :
    ((BedrockAgentOptimizer.init config initialStore).runChain
      invoke mode lat now agents input).results.length = agents.length := by
  have h := runChainGo_length
    ⟨invoke, config.cache_ttl, config.prediction_threshold, mode, lat, now⟩ agents 0
    ⟨⟨initialStore, 0, 0⟩, freshRouter, [], [], [], [], input⟩
  simpa using h
